import Mathlib

/-!
Verification of the `dual-annealing` core.

A shallow embedding of the Generalized Simulated Annealing implementation
(`chain.hpp`, `tsallis_distribution.hpp`, `buffers.cpp`) and proofs about it.

Modelling conventions:
* `float`/`double` values are modelled as exact rationals (`ℚ`); the claims
  under study are about control flow and algebraic structure, not rounding.
* The math-library primitives (`std::pow`, `std::sqrt`) and the distribution
  transforms (`std::gamma_distribution`, `std::normal_distribution`,
  `std::uniform_real_distribution`), which the spec declares external
  collaborators, are abstract function parameters collected in `math_prims_t`.
  `std::normal_distribution{mean, stddev}` applied to a generator is modelled
  as `mean + stddev * normal_inv(draw)` where `normal_inv(draw)` is the
  standard-normal variate obtained from the next raw draw; each distribution
  invocation consumes exactly one raw draw of the generator stream.
* The random bit generator is a stream of raw draws plus a cursor.
* `size_t` arithmetic in the buffer pool is modelled as `ℕ` with explicit
  reduction modulo `2 ^ 64` where the C++ computation can wrap around.
* The temperature schedule is additionally stated over `ℝ` with real
  exponentiation, which is the exact mathematics the float code approximates.
-/

/-- External numeric primitives used by the C++ code: `std::pow` and
`std::sqrt` on `float`, and the inverse-transform maps of the three
distribution objects (each consumes one raw generator draw). -/
structure math_prims_t where
  powf : ℚ → ℚ → ℚ
  sqrtf : ℚ → ℚ
  gamma_inv : ℚ → ℚ → ℚ
  normal_inv : ℚ → ℚ
  uniform_inv : ℚ → ℚ

/-- The random bit generator: an infinite stream of raw draws and the position
of the next unconsumed draw. -/
structure generator_t where
  stream : ℕ → ℚ
  pos : ℕ

/-- Consume one raw draw. -/
def generator_t.next (g : generator_t) : ℚ × generator_t :=
  (g.stream g.pos, { g with pos := g.pos + 1 })

/-- Models `std::uniform_real_distribution<float>{}(generator)`: one uniform(0,1)
draw. -/
def uniform_sample (P : math_prims_t) (g : generator_t) : ℚ × generator_t :=
  (P.uniform_inv (g.stream g.pos), { g with pos := g.pos + 1 })

/-- Models `std::normal_distribution<float>{mean, stddev}(generator)`: one normal
draw, modelled as `mean + stddev * z` for a standard-normal `z` obtained from
the next raw draw. -/
def normal_sample (P : math_prims_t) (mean stddev : ℚ) (g : generator_t) :
    ℚ × generator_t :=
  (mean + stddev * P.normal_inv (g.stream g.pos), { g with pos := g.pos + 1 })

/-- Models `std::gamma_distribution<float>{shape, 1}(generator)`: one gamma draw. -/
def gamma_sample (P : math_prims_t) (shape : ℚ) (g : generator_t) :
    ℚ × generator_t :=
  (P.gamma_inv shape (g.stream g.pos), { g with pos := g.pos + 1 })

/-- Embeds `tsallis_distribution_t::get_p`: gamma shape `(3 - q_V) / (2 (q_V - 1))`. -/
def get_p (q_V : ℚ) : ℚ := (3 - q_V) / (2 * (q_V - 1))

/-- Embeds `tsallis_distribution_t::get_s`:
`sqrt(2 (q_V - 1)) / pow(t_V, 1 / (3 - q_V))`. -/
def get_s (P : math_prims_t) (q_V t_V : ℚ) : ℚ :=
  P.sqrtf (2 * (q_V - 1)) / P.powf t_V (1 / (3 - q_V))

/-- Embeds `tsallis_distribution_t::param_type`: `(q_V, t_V)` plus the derived `s`. -/
structure tsallis_param_t where
  q_V : ℚ
  t_V : ℚ
  s : ℚ
deriving DecidableEq

/-- The `param_type` constructor: computes `s` from `q_V` and `t_V`. -/
def tsallis_param (P : math_prims_t) (q_V t_V : ℚ) : tsallis_param_t :=
  { q_V := q_V, t_V := t_V, s := get_s P q_V t_V }

/-- Embeds `tsallis_distribution_t::operator()(generator)`: draw `u` from the gamma
distribution, set `y = s * sqrt u`, draw `x` from the standard normal, return
`x / y`.  Consumes its own gamma draw on every call. -/
def tsallis_one (P : math_prims_t) (par : tsallis_param_t) (g : generator_t) :
    ℚ × generator_t :=
  let gu := gamma_sample P (get_p par.q_V) g
  let y := par.s * P.sqrtf gu.1
  let gx := normal_sample P 0 1 gu.2
  (gx.1 / y, gx.2)

/-- Embeds `tsallis_distribution_t::many(generator)`: draw `u` once, set
`y = s * sqrt u`, and return the state of the closure — a
`normal_distribution{0, 1/y}` bound to the generator.  The first component is
the captured standard deviation `1 / y`. -/
def tsallis_many (P : math_prims_t) (par : tsallis_param_t) (g : generator_t) :
    ℚ × generator_t :=
  let gu := gamma_sample P (get_p par.q_V) g
  let y := par.s * P.sqrtf gu.1
  (1 / y, gu.2)

/-- The result of invoking the closure returned by `many` for the `(k+1)`-th
time: each invocation draws once from `normal_distribution{0, stddev}`. -/
def many_calls (P : math_prims_t) (stddev : ℚ) : ℕ → generator_t → ℚ × generator_t
  | 0, g => normal_sample P 0 stddev g
  | k + 1, g => many_calls P stddev k (normal_sample P 0 stddev g).2

/-- The `k`-th (0-based) variate produced after one call to `many`. -/
def tsallis_many_nth (P : math_prims_t) (par : tsallis_param_t)
    (g : generator_t) (k : ℕ) : ℚ :=
  (many_calls P (tsallis_many P par g).1 k (tsallis_many P par g).2).1

/-- Embeds `sa_chain_t::accept_or_reject(dE, t_A)`: moves with `dE < 0` are accepted
without consuming a draw; otherwise `factor = 1 + (q_A - 1) dE / t_A`,
`P_qA = 0` if `factor ≤ 0` else `pow(factor, 1/(1 - q_A))`, and one uniform
draw `u` decides acceptance by `u ≤ P_qA`.  The C++ passes accept/reject
continuations; here the decision is returned as a `Bool` together with the
advanced generator. -/
def accept_or_reject (P : math_prims_t) (q_A dE t_A : ℚ) (g : generator_t) :
    Bool × generator_t :=
  if dE < 0 then (true, g)
  else
    let factor := 1 + (q_A - 1) * dE / t_A
    let P_qA := if factor ≤ 0 then (0 : ℚ) else P.powf factor (1 / (1 - q_A))
    let gu := uniform_sample P g
    (decide (gu.1 ≤ P_qA), gu.2)

/-- The acceptance probability exactly as the spec words it: `factor =
1 + (q_A-1)·dE/t_A`; `P = 0` if `factor ≤ 0`, else `factor^(1/(1-q_A))`. -/
def acceptance_probability (P : math_prims_t) (q_A dE t_A : ℚ) : ℚ :=
  let factor := 1 + (q_A - 1) * dE / t_A
  if factor ≤ 0 then 0 else P.powf factor (1 / (1 - q_A))

/-- Embeds `workspace_t::point_t`: a function value and a point.  The C++ `x` is a
non-owning view into workspace storage; data-wise a point is its contents. -/
structure point_t where
  func : ℚ
  x : List ℚ
deriving DecidableEq

/-- Embeds `workspace_t`: the three points backed by the triple buffer. -/
structure workspace_t where
  current : point_t
  proposed : point_t
  best : point_t
deriving DecidableEq

/-- The `if (current.func < best.func) best = current;` pattern shared by both
acceptance lambdas and by `local_search`. -/
def update_best (ws : workspace_t) : workspace_t :=
  if ws.current.func < ws.best.func then { ws with best := ws.current } else ws

/-- The objective-function interface (an external collaborator): `value`,
`wrap`, and the optional incremental evaluator `value_from_diff`
(compile-time capability detection in the C++; `none` models an objective
lacking the member function). -/
structure objective_t where
  value : List ℚ → ℚ
  wrap : ℚ → ℚ
  value_from_diff : Option ((List ℚ × ℚ) → (ℕ × ℚ) → ℚ)

/-- Embeds the `detail::do_value_from_diff` fallback overload (objective lacks
`value_from_diff`): save `x[j]`, overwrite `x[j] := v` in place, evaluate
`value` on the mutated vector, and restore `x[j]` via the scope guard.  The
second component is the buffer contents after the call returns. -/
def do_value_from_diff_fallback (value : List ℚ → ℚ) (x : List ℚ) (j : ℕ)
    (v : ℚ) : ℚ × List ℚ :=
  let saved := x.getD j 0
  let mutated := x.set j v
  (value mutated, mutated.set j saved)

/-- Embeds the `detail::do_value_from_diff` dispatcher: forwards to the objective's
`value_from_diff` when present, otherwise uses the mutate-evaluate-restore
fallback.  Returns the computed value and the contents of the `current.x`
buffer after the call. -/
def do_value_from_diff (obj : objective_t) (x : List ℚ) (cur : ℚ) (j : ℕ)
    (v : ℚ) : ℚ × List ℚ :=
  match obj.value_from_diff with
  | some f => (f (x, cur) (j, v), x)
  | none => do_value_from_diff_fallback obj.value x j v

/-- Embeds `param_t`: the annealing hyper-parameters. -/
structure param_t where
  q_V : ℚ
  q_A : ℚ
  t_0 : ℚ
  num_iter : ℕ
  patience : ℕ

/-- Embeds `result_t`.  `acceptance` is `NaN` when `iteration == 0`; `NaN` is
modelled as `none`. -/
structure result_t where
  func : ℚ
  num_iter : ℕ
  num_f_evals : ℕ
  acceptance : Option ℚ
deriving DecidableEq

/-- The state of `sa_chain_t`: the workspace, the generator, the Tsallis
distribution parameters, and the three counters `_i`, `_num_accepted`,
`_num_f_evals`. -/
structure sa_chain_t where
  ws : workspace_t
  gen : generator_t
  dist : tsallis_param_t
  i : ℕ
  num_accepted : ℕ
  num_f_evals : ℕ

/-- The `sa_chain_t` constructor: evaluate the objective at `current.x`
(one function evaluation), copy `current` into `best`, zero `proposed.x`,
and set `proposed.func` to a placeholder (`NaN` in the C++, overwritten
before it is ever read; modelled as `0`).  The distribution is seeded with
`(q_V, t_0)`. -/
def sa_chain_init (P : math_prims_t) (obj : objective_t) (par : param_t)
    (x0 : List ℚ) (g : generator_t) : sa_chain_t :=
  let f := obj.value x0
  { ws :=
      { current := { func := f, x := x0 }
        proposed := { func := 0, x := List.replicate x0.length 0 }
        best := { func := f, x := x0 } }
    gen := g
    dist := tsallis_param P par.q_V par.t_0
    i := 0
    num_accepted := 0
    num_f_evals := 1 }

/-- Embeds `sa_chain_t::temperature(i)`:
`t_0 * (pow(2, q_V - 1) - 1) / (pow(2 + i, q_V - 1) - 1)` with the float
`pow` primitive. -/
def temperature (P : math_prims_t) (t_0 q_V : ℚ) (i : ℕ) : ℚ :=
  t_0 * (P.powf 2 (q_V - 1) - 1) / (P.powf ((2 + i : ℕ) : ℚ) (q_V - 1) - 1)

/-- The same schedule over `ℝ` with exact real exponentiation — the
mathematics the float formula computes. -/
noncomputable def temperatureR (t_0 q_V : ℝ) (i : ℕ) : ℝ :=
  t_0 * ((2 : ℝ) ^ (q_V - 1) - 1) / (((2 + i : ℕ) : ℝ) ^ (q_V - 1) - 1)

/-- The loop body of `std::transform` in `sa_chain_t::generate_full`: each
coordinate of the proposal is `wrap(x + g())` where `g()` draws once from the
`normal_distribution{0, stddev}` captured by `many`'s closure. -/
def map_with_draws (P : math_prims_t) (obj : objective_t) (stddev : ℚ) :
    List ℚ → generator_t → List ℚ × generator_t
  | [], g => ([], g)
  | a :: as, g =>
    let gz := normal_sample P 0 stddev g
    let rest := map_with_draws P obj stddev as gz.2
    (obj.wrap (a + gz.1) :: rest.1, rest.2)

/-- Embeds `sa_chain_t::generate_full`: call `many` (one gamma draw), transform
`current.x` into `proposed.x` coordinate-wise, then evaluate the objective on
the proposal (one function evaluation, `proposed.func`). -/
def generate_full (P : math_prims_t) (obj : objective_t) (c : sa_chain_t) :
    sa_chain_t :=
  let mg := tsallis_many P c.dist c.gen
  let mx := map_with_draws P obj mg.1 c.ws.current.x mg.2
  { c with
    gen := mx.2
    ws := { c.ws with proposed := { func := obj.value mx.1, x := mx.1 } }
    num_f_evals := c.num_f_evals + 1 }

/-- One iteration of the full-move loop in `sa_chain_t::operator()`:
generate a full-vector proposal, then `accept_or_reject` on
`proposed.func - current.func`; acceptance swaps `current` and `proposed`
(a view swap in the C++) and runs the best-point update. -/
def full_move (P : math_prims_t) (obj : objective_t) (par : param_t)
    (t_A : ℚ) (c : sa_chain_t) : sa_chain_t :=
  let c1 := generate_full P obj c
  let ar := accept_or_reject P par.q_A
    (c1.ws.proposed.func - c1.ws.current.func) t_A c1.gen
  let c2 := { c1 with gen := ar.2 }
  if ar.1 then
    { c2 with
      ws := update_best
        { c2.ws with current := c2.ws.proposed, proposed := c2.ws.current }
      num_accepted := c2.num_accepted + 1 }
  else c2

/-- One iteration of the single-coordinate loop in `sa_chain_t::operator()`
(`generate_one(j)` followed by `accept_or_reject`): draw one Tsallis variate
(its own gamma and normal draws), wrap it, evaluate via `value_from_diff`
(one function evaluation; the buffer contents it returns are written back —
the fallback restores them), then on acceptance overwrite `current.x[j]` and
`current.func` in place and run the best-point update. -/
def coord_move (P : math_prims_t) (obj : objective_t) (par : param_t)
    (t_A : ℚ) (j : ℕ) (c : sa_chain_t) : sa_chain_t :=
  let t1 := tsallis_one P c.dist c.gen
  let x := obj.wrap t1.1
  let vd := do_value_from_diff obj c.ws.current.x c.ws.current.func j x
  let c1 := { c with
    gen := t1.2
    ws := { c.ws with current := { func := c.ws.current.func, x := vd.2 } }
    num_f_evals := c.num_f_evals + 1 }
  let ar := accept_or_reject P par.q_A (vd.1 - c1.ws.current.func) t_A c1.gen
  let c2 := { c1 with gen := ar.2 }
  if ar.1 then
    { c2 with
      ws := update_best
        { c2.ws with
          current := { func := vd.1, x := c2.ws.current.x.set j x } }
      num_accepted := c2.num_accepted + 1 }
  else c2

/-- The body of `sa_chain_t::operator()` after the temperatures are fixed:
`dim` full moves, `dim` single-coordinate moves, then `++_i`.  The C++ loop
bound `dim()` is re-read every iteration; it is constant throughout (the
moves preserve the lengths of all three buffers, see
`full_move_dim` and `coord_move_dim`), so the bound is read once here. -/
def sa_step_core (P : math_prims_t) (obj : objective_t) (par : param_t)
    (t_A : ℚ) (c : sa_chain_t) : sa_chain_t :=
  let D := c.ws.current.x.length
  let c1 := (List.range D).foldl (fun acc _ => full_move P obj par t_A acc) c
  let c2 := (List.range D).foldl
    (fun acc j => coord_move P obj par t_A j acc) c1
  { c2 with i := c2.i + 1 }

/-- Embeds `sa_chain_t::operator()`: compute `t_V = temperature(i)` and
`t_A = t_V / (i + 1)`, update the sampler parameters to `(q_V, t_V)`
(recomputing the derived `s`), then run the constant-temperature Markov
chain. -/
def sa_step (P : math_prims_t) (obj : objective_t) (par : param_t)
    (c : sa_chain_t) : sa_chain_t :=
  let t_V := temperature P par.t_0 par.q_V c.i
  sa_step_core P obj par (t_V / ((c.i : ℚ) + 1))
    { c with dist := tsallis_param P par.q_V t_V }

/-- Embeds `sa_chain_t::acceptance()`: `NaN` (modelled `none`) before the first
completed iteration, else `num_accepted / (2 * i * dim)`. -/
def chain_acceptance (c : sa_chain_t) : Option ℚ :=
  if c.i = 0 then none
  else some ((c.num_accepted : ℚ) / (2 * (c.i : ℚ) * (c.ws.current.x.length : ℚ)))

/-- Embeds `tcm::lbfgs::status_t`: the six statuses named in the adapter's switch,
`success`, and all remaining codes collapsed into `other`. -/
inductive lbfgs_status
  | success
  | too_many_iterations
  | maximum_step_reached
  | minimum_step_reached
  | too_many_function_evaluations
  | interval_too_small
  | rounding_errors_prevent_progress
  | other (code : ℕ)
deriving DecidableEq

/-- The six "questionable" statuses of the switch in
`sa_chain_t::local_search` (iteration/evaluation limits, step bounds,
rounding issues). -/
def soft_failure : lbfgs_status → Bool
  | .too_many_iterations => true
  | .maximum_step_reached => true
  | .minimum_step_reached => true
  | .too_many_function_evaluations => true
  | .interval_too_small => true
  | .rounding_errors_prevent_progress => true
  | _ => false

/-- The outcome of one invocation of the external L-BFGS solver (an opaque
collaborator): its status, the refined point it left in `proposed.x`, its
final function value `r.func`, and the number of `value_and_gradient`
callbacks it made (each increments `_num_f_evals`). -/
structure lbfgs_outcome_t where
  status : lbfgs_status
  x : List ℚ
  func : ℚ
  n_evals : ℕ

/-- Embeds `sa_chain_t::local_search`: copy `current` into `proposed`, run the
external solver in place on `proposed.x`, set `proposed.func` to the solver's
final value, then the switch: a soft-failure status that did not reduce the
objective below `current.func` returns `success` without touching `current`;
a soft failure that did reduce it falls through to the `success` case, which
swaps `proposed` into `current` and runs the best-point update; any other
status leaves `current` untouched and is returned to the caller. -/
def local_search (r : lbfgs_outcome_t) (c : sa_chain_t) :
    lbfgs_status × sa_chain_t :=
  let c0 := { c with
    ws := { c.ws with proposed := { func := r.func, x := r.x } }
    num_f_evals := c.num_f_evals + r.n_evals }
  if soft_failure r.status ∧ c0.ws.current.func ≤ c0.ws.proposed.func then
    (.success, c0)
  else if soft_failure r.status ∨ r.status = .success then
    (.success,
      { c0 with
        ws := update_best
          { c0.ws with current := c0.ws.proposed, proposed := c0.ws.current } })
  else (r.status, c0)

/-- Evaluates `f < best` for the driver's `double` tracker, whose initial value is
`std::numeric_limits<double>::infinity()`; `+∞` is modelled as `none`. -/
def lt_tracker (f : ℚ) (best : Option ℚ) : Bool :=
  match best with
  | none => true
  | some b => decide (f < b)

/-- The driver loop of the `minimize` overload without local search
(`chain.hpp` lines 436-442): run while `iteration < num_iter && patience != 0`;
the body advances the chain and resets `patience` when `best.func` is below
the tracked best value (`+∞` at entry — the C++ never updates this tracker in
this overload); `--patience` runs after each body.  `fuel` is an upper bound
on the remaining loop iterations; since each pass increments `chain.i` by one
(see `sa_step_counters`), `fuel = num_iter - i` iterations always suffice and
the recursion is exact for `fuel ≥ num_iter`. -/
def minimize_loop (P : math_prims_t) (obj : objective_t) (par : param_t) :
    ℕ → sa_chain_t → Option ℚ → ℕ → sa_chain_t
  | 0, c, _, _ => c
  | fuel + 1, c, best, patience =>
    if c.i < par.num_iter ∧ patience ≠ 0 then
      let c1 := sa_step P obj par c
      let patience1 :=
        if lt_tracker c1.ws.best.func best then par.patience else patience
      minimize_loop P obj par fuel c1 best (patience1 - 1)
    else c

/-- The `minimize` overload without local search: construct the chain over the
caller's point, run the driver loop with the best-value tracker at `+∞` and
the configured patience, and build the final `result_t` from `best` and the
chain counters.  (The copy of `best.x` back into the caller's vector carries
no information beyond `ws.best.x` and is omitted.) -/
def minimize (P : math_prims_t) (obj : objective_t) (par : param_t)
    (x : List ℚ) (g : generator_t) : result_t :=
  let c0 := sa_chain_init P obj par x g
  let cf := minimize_loop P obj par par.num_iter c0 none par.patience
  { func := cf.ws.best.func
    num_iter := cf.i
    num_f_evals := cf.num_f_evals
    acceptance := chain_acceptance cf }

/-- Models `SIZE_MAX` on the 64-bit platform the code targets. -/
def SIZE_MAX : ℕ := 2 ^ 64 - 1

/-- Embeds `detail::buffers_base_t<3>::align_up<64>`:
`(value + 63) & ~63` in `size_t` arithmetic (the addition may wrap). -/
def align_up (value : ℕ) : ℕ := (value + 63) % 2 ^ 64 / 64 * 64

/-- The state of `detail::buffers_base_t<3>`: whether `_data` is non-null is
subsumed by `capacity` (elements the allocation holds) and `buffer_size`
(logical length of each of the three views). -/
structure buffers_base_t where
  capacity : ℕ
  buffer_size : ℕ
deriving DecidableEq

/-- The two failures `resize` can raise. -/
inductive alloc_error
  | overflow_error
  | bad_alloc
deriving DecidableEq

/-- Embeds `detail::buffers_base_t<3>::allocate_buffer(size)`: throw
`std::overflow_error` when `size > SIZE_MAX / sizeof(float)`, else ask the
allocator for `size * sizeof(float)` bytes (`alloc_ok` models whether
`std::aligned_alloc` returns memory) and throw `std::bad_alloc` on `nullptr`. -/
def allocate_buffer (alloc_ok : ℕ → Bool) (size : ℕ) :
    Except alloc_error Unit :=
  if SIZE_MAX / 4 < size then .error .overflow_error
  else if alloc_ok (size * 4) then .ok () else .error .bad_alloc

/-- Embeds `detail::buffers_base_t<3>::resize(size)`:
`required_capacity = align_up<64>(size) * 3` in wrapping `size_t` arithmetic;
reallocate only when it exceeds the current capacity; then record the logical
size (the `memset` re-zeroing does not change the sizes). -/
def buffers_resize (alloc_ok : ℕ → Bool) (b : buffers_base_t) (size : ℕ) :
    Except alloc_error buffers_base_t :=
  let required := align_up size * 3 % 2 ^ 64
  if b.capacity < required then
    match allocate_buffer alloc_ok required with
    | .error e => .error e
    | .ok _ => .ok { capacity := required, buffer_size := size }
  else .ok { b with buffer_size := size }

/-- Embeds `thread_local_workspace(size)`: resize the thread-local buffers and hand
out the workspace; the catch blocks convert `std::overflow_error` and
`std::bad_alloc` into an empty optional.  The returned value is the buffers
state from which the three views of length `buffer_size` are cut at strides
of `align_up buffer_size` within `capacity`. -/
def thread_local_workspace (alloc_ok : ℕ → Bool) (b : buffers_base_t)
    (size : ℕ) : Option buffers_base_t :=
  match buffers_resize alloc_ok b size with
  | .ok b1 => some b1
  | .error _ => none

/-! Concrete instances used to evaluate the embedding at specific inputs. -/

/-- A concrete instantiation of the external numeric primitives. -/
def zero_prims : math_prims_t :=
  { powf := fun _ _ => 0
    sqrtf := fun _ => 0
    gamma_inv := fun _ _ => 0
    normal_inv := fun _ => 0
    uniform_inv := fun _ => 0 }

/-- A concrete generator: the all-zero draw stream. -/
def zero_gen : generator_t := { stream := fun _ => 0, pos := 0 }

/-- A constant objective: `value ≡ 0`, identity wrap, no incremental
evaluator.  Its best value never improves after construction. -/
def const_objective : objective_t :=
  { value := fun _ => 0, wrap := id, value_from_diff := none }

/-- A sum objective without an incremental evaluator. -/
def sum_objective : objective_t :=
  { value := fun l => l.sum, wrap := id, value_from_diff := none }

/-- A concrete one-dimensional chain state with `current.func = 0`. -/
def ex_chain : sa_chain_t :=
  { ws :=
      { current := { func := 0, x := [0] }
        proposed := { func := 0, x := [0] }
        best := { func := 0, x := [0] } }
    gen := zero_gen
    dist := { q_V := 2, t_V := 1, s := 0 }
    i := 0
    num_accepted := 0
    num_f_evals := 1 }

/-- A solver outcome: clean `success` but with a final value worse than the
chain's `current.func` (the solver is an opaque external routine; nothing in
the adapter forbids this outcome). -/
def success_worse_outcome : lbfgs_outcome_t :=
  { status := .success, x := [0], func := 1, n_evals := 0 }

/-- A soft-failure solver outcome that did not improve the objective. -/
def soft_no_gain_outcome : lbfgs_outcome_t :=
  { status := .too_many_iterations, x := [0], func := 1, n_evals := 0 }

/-- A hard-failure solver outcome. -/
def hard_outcome : lbfgs_outcome_t :=
  { status := .other 7, x := [0], func := 5, n_evals := 0 }

/-- A request size for which `3 * align_up size` wraps around `2^64`: the
smallest multiple of 64 at least `2^64 / 3`.  `3 * align_up size = 2^64 + 128`,
which wraps to `128`. -/
def wrap_size : ℕ := 6148914691236517248

/-! Helper lemmas. -/

/-- A predicate preserved by every fold step is preserved by the fold. -/
theorem foldl_preserves {α β : Type _} (p : α → Prop) (f : α → β → α)
    (h : ∀ a b, p a → p (f a b)) :
    ∀ (l : List β) (a : α), p a → p (l.foldl f a) := by
  intro l
  induction l with
  | nil => intro a ha; exact ha
  | cons b bs ih => intro a ha; exact ih (f a b) (h a b ha)

/-- A measure each fold step increments by one grows by the list length. -/
theorem foldl_add_one {α β : Type _} (m : α → ℕ) (f : α → β → α)
    (h : ∀ a b, m (f a b) = m a + 1) :
    ∀ (l : List β) (a : α), m (l.foldl f a) = m a + l.length := by
  intro l
  induction l with
  | nil => intro a; simp
  | cons b bs ih => intro a; simp [ih (f a b), h a b]; omega

/-- A measure kept constant by every fold step is constant across the fold. -/
theorem foldl_keeps {α β γ : Type _} (m : α → γ) (f : α → β → α)
    (h : ∀ a b, m (f a b) = m a) :
    ∀ (l : List β) (a : α), m (l.foldl f a) = m a := by
  intro l
  induction l with
  | nil => intro a; rfl
  | cons b bs ih => intro a; rw [List.foldl_cons, ih (f a b), h a b]

/-- After the guarded best-point update, `best.func ≤ current.func` holds
unconditionally. -/
theorem update_best_le (ws : workspace_t) :
    (update_best ws).best.func ≤ (update_best ws).current.func := by
  unfold update_best
  split
  · exact le_refl _
  · exact le_of_not_lt (by assumption)

/-- The guarded best-point update never touches `current`. -/
theorem update_best_current (ws : workspace_t) :
    (update_best ws).current = ws.current := by
  unfold update_best
  split <;> rfl

/-- Writing back the saved element after `set` restores the list. -/
theorem set_set_getD (x : List ℚ) (j : ℕ) (v : ℚ) :
    (x.set j v).set j (x.getD j 0) = x := by
  induction x generalizing j with
  | nil => simp
  | cons a as ih =>
    cases j with
    | zero => simp
    | succ n => simpa using ih n

/-! Claim theorems. -/

/-- C1: `accept_or_reject(dE, t_A)` accepts unconditionally whenever
`dE < 0`; otherwise it computes `factor = 1 + (q_A-1)·dE/t_A`, takes the
acceptance probability `P` to be `0` when `factor ≤ 0` and
`factor^(1/(1-q_A))` otherwise, and accepts iff the fresh uniform draw `u`
satisfies `u ≤ P`. -/
theorem accept_or_reject_spec (P : math_prims_t) (q_A dE t_A : ℚ)
    (g : generator_t) :
    (accept_or_reject P q_A dE t_A g).1 = true ↔
      (dE < 0 ∨
        P.uniform_inv (g.stream g.pos) ≤ acceptance_probability P q_A dE t_A) := by
  unfold accept_or_reject acceptance_probability uniform_sample
  by_cases h : dE < 0
  · simp [h]
  · simp [h]

/-- C9: for an objective lacking an incremental evaluator, the fallback
`do_value_from_diff` returns exactly `value()` on `x` with coordinate `j`
replaced by `v`, and afterwards the vector `x` is restored to its original
contents. -/
theorem do_value_from_diff_fallback_spec (obj : objective_t) (x : List ℚ)
    (cur v : ℚ) (j : ℕ) (h : obj.value_from_diff = none) :
    (do_value_from_diff obj x cur j v).1 = obj.value (x.set j v) ∧
      (do_value_from_diff obj x cur j v).2 = x := by
  unfold do_value_from_diff
  rw [h]
  exact ⟨rfl, set_set_getD x j v⟩

/-- Witness for C9 at the sum objective, `x = [1,2,3]`, `j = 1`, `v = 5`. -/
theorem do_value_from_diff_fallback_spec_w :
    (do_value_from_diff sum_objective [1, 2, 3] 6 1 5).1 =
        sum_objective.value ([1, 2, 3].set 1 5) ∧
      (do_value_from_diff sum_objective [1, 2, 3] 6 1 5).2 = [1, 2, 3] :=
  do_value_from_diff_fallback_spec sum_objective [1, 2, 3] 6 5 1 rfl

/-- A full move yields `best.func ≤ current.func` from the same invariant on
its input. -/
theorem full_move_inv (P : math_prims_t) (obj : objective_t) (par : param_t)
    (t_A : ℚ) (c : sa_chain_t)
    (h : c.ws.best.func ≤ c.ws.current.func) :
    (full_move P obj par t_A c).ws.best.func ≤
      (full_move P obj par t_A c).ws.current.func := by
  unfold full_move generate_full
  dsimp only
  split
  · exact update_best_le _
  · exact h

/-- A coordinate move yields `best.func ≤ current.func` from the same
invariant on its input (the `value_from_diff` write-back does not change
`current.func`). -/
theorem coord_move_inv (P : math_prims_t) (obj : objective_t) (par : param_t)
    (t_A : ℚ) (j : ℕ) (c : sa_chain_t)
    (h : c.ws.best.func ≤ c.ws.current.func) :
    (coord_move P obj par t_A j c).ws.best.func ≤
      (coord_move P obj par t_A j c).ws.current.func := by
  unfold coord_move
  dsimp only
  split
  · exact update_best_le _
  · exact h

/-- One step preserves `best.func ≤ current.func`. -/
theorem sa_step_inv (P : math_prims_t) (obj : objective_t) (par : param_t)
    (c : sa_chain_t) (h : c.ws.best.func ≤ c.ws.current.func) :
    (sa_step P obj par c).ws.best.func ≤
      (sa_step P obj par c).ws.current.func := by
  unfold sa_step sa_step_core
  dsimp only
  apply foldl_preserves (fun a => a.ws.best.func ≤ a.ws.current.func)
    _ (fun a b hb => coord_move_inv P obj par _ b a hb)
  apply foldl_preserves (fun a => a.ws.best.func ≤ a.ws.current.func)
    _ (fun a b hb => full_move_inv P obj par _ a hb)
  exact h

/-- C2: after chain construction and after any number of steps,
`workspace.best.func ≤ workspace.current.func`. -/
theorem chain_best_le_current (P : math_prims_t) (obj : objective_t)
    (par : param_t) (x0 : List ℚ) (g : generator_t) (n : ℕ) :
    ((sa_step P obj par)^[n] (sa_chain_init P obj par x0 g)).ws.best.func ≤
      ((sa_step P obj par)^[n] (sa_chain_init P obj par x0 g)).ws.current.func := by
  induction n with
  | zero => rw [Function.iterate_zero_apply]; exact le_refl _
  | succ n ih =>
    rw [Function.iterate_succ_apply']
    exact sa_step_inv P obj par _ ih

/-- A full move makes exactly one objective evaluation. -/
theorem full_move_num_f_evals (P : math_prims_t) (obj : objective_t)
    (par : param_t) (t_A : ℚ) (c : sa_chain_t) :
    (full_move P obj par t_A c).num_f_evals = c.num_f_evals + 1 := by
  unfold full_move generate_full
  dsimp only
  split <;> rfl

/-- A coordinate move makes exactly one objective evaluation (also through
the incremental-evaluation dispatcher). -/
theorem coord_move_num_f_evals (P : math_prims_t) (obj : objective_t)
    (par : param_t) (t_A : ℚ) (j : ℕ) (c : sa_chain_t) :
    (coord_move P obj par t_A j c).num_f_evals = c.num_f_evals + 1 := by
  unfold coord_move
  dsimp only
  split <;> rfl

/-- A full move does not change the iteration counter. -/
theorem full_move_i (P : math_prims_t) (obj : objective_t) (par : param_t)
    (t_A : ℚ) (c : sa_chain_t) :
    (full_move P obj par t_A c).i = c.i := by
  unfold full_move generate_full
  dsimp only
  split <;> rfl

/-- A coordinate move does not change the iteration counter. -/
theorem coord_move_i (P : math_prims_t) (obj : objective_t) (par : param_t)
    (t_A : ℚ) (j : ℕ) (c : sa_chain_t) :
    (coord_move P obj par t_A j c).i = c.i := by
  unfold coord_move
  dsimp only
  split <;> rfl

/-- Lemma: `map_with_draws` writes exactly one proposal coordinate per input
coordinate. -/
theorem map_with_draws_length (P : math_prims_t) (obj : objective_t)
    (stddev : ℚ) (l : List ℚ) (g : generator_t) :
    (map_with_draws P obj stddev l g).1.length = l.length := by
  induction l generalizing g with
  | nil => rfl
  | cons a as ih => simpa [map_with_draws] using ih _

/-- The write-back of the incremental-evaluation dispatcher keeps the buffer
length. -/
theorem do_value_from_diff_length (obj : objective_t) (x : List ℚ)
    (cur v : ℚ) (j : ℕ) :
    (do_value_from_diff obj x cur j v).2.length = x.length := by
  unfold do_value_from_diff do_value_from_diff_fallback
  cases obj.value_from_diff <;> simp

/-- A full move keeps the dimension of `current.x` (the swap exchanges two
views of equal length). -/
theorem full_move_dim (P : math_prims_t) (obj : objective_t) (par : param_t)
    (t_A : ℚ) (c : sa_chain_t) :
    (full_move P obj par t_A c).ws.current.x.length =
      c.ws.current.x.length := by
  unfold full_move generate_full
  dsimp only
  split
  · rw [update_best_current]
    exact map_with_draws_length ..
  · rfl

/-- A coordinate move keeps the dimension of `current.x`. -/
theorem coord_move_dim (P : math_prims_t) (obj : objective_t) (par : param_t)
    (t_A : ℚ) (j : ℕ) (c : sa_chain_t) :
    (coord_move P obj par t_A j c).ws.current.x.length =
      c.ws.current.x.length := by
  unfold coord_move
  dsimp only
  split
  · rw [update_best_current]
    dsimp only
    rw [List.length_set]
    exact do_value_from_diff_length ..
  · exact do_value_from_diff_length ..

/-- One step increments the iteration counter by exactly one. -/
theorem sa_step_i (P : math_prims_t) (obj : objective_t) (par : param_t)
    (c : sa_chain_t) : (sa_step P obj par c).i = c.i + 1 := by
  unfold sa_step sa_step_core
  dsimp only
  rw [foldl_keeps (fun a => a.i) _ (fun a b => coord_move_i P obj par _ b a),
    foldl_keeps (fun a => a.i) _ (fun a b => full_move_i P obj par _ a)]

/-- One step makes exactly `2 * D` objective evaluations. -/
theorem sa_step_num_f_evals (P : math_prims_t) (obj : objective_t)
    (par : param_t) (c : sa_chain_t) :
    (sa_step P obj par c).num_f_evals =
      c.num_f_evals + 2 * c.ws.current.x.length := by
  unfold sa_step sa_step_core
  dsimp only
  rw [foldl_add_one (fun a => a.num_f_evals) _
      (fun a b => coord_move_num_f_evals P obj par _ b a),
    foldl_add_one (fun a => a.num_f_evals) _
      (fun a b => full_move_num_f_evals P obj par _ a),
    List.length_range]
  dsimp only
  omega

/-- C10: each step increments the iteration counter by exactly one and the
evaluation counter by exactly `2 * D`, one evaluation per full-vector
candidate and one per single-coordinate candidate, independently of which
moves are accepted and of whether the objective supports incremental
evaluation. -/
theorem sa_step_counters (P : math_prims_t) (obj : objective_t)
    (par : param_t) (c : sa_chain_t) :
    (sa_step P obj par c).i = c.i + 1 ∧
      (sa_step P obj par c).num_f_evals =
        c.num_f_evals + 2 * c.ws.current.x.length ∧
      (∀ (t_A : ℚ) (c1 : sa_chain_t),
        (full_move P obj par t_A c1).num_f_evals = c1.num_f_evals + 1) ∧
      (∀ (t_A : ℚ) (j : ℕ) (c1 : sa_chain_t),
        (coord_move P obj par t_A j c1).num_f_evals = c1.num_f_evals + 1) :=
  ⟨sa_step_i P obj par c, sa_step_num_f_evals P obj par c,
    fun t_A c1 => full_move_num_f_evals P obj par t_A c1,
    fun t_A j c1 => coord_move_num_f_evals P obj par t_A j c1⟩

/-- The `(k+1)`-th draw from the closure returned by `many` is the normal
variate obtained from the `k`-th raw draw after the closure was created,
scaled by the captured standard deviation. -/
theorem many_calls_fst (P : math_prims_t) (stddev : ℚ) (k : ℕ)
    (g : generator_t) :
    (many_calls P stddev k g).1 = stddev * P.normal_inv (g.stream (g.pos + k)) := by
  induction k generalizing g with
  | zero => simp [many_calls, normal_sample]
  | succ n ih =>
    unfold many_calls
    rw [ih]
    simp only [normal_sample]
    rw [show g.pos + 1 + n = g.pos + (n + 1) by omega]

/-- C4: for valid `(q_V, t_V)`, the single-variate draw returns
`x / (s * sqrt u)` with its own gamma draw `u` and standard-normal draw `x`;
one call to `many()` draws `u` exactly once (advancing the generator by one),
and the `k`-th variate it produces is an independent standard-normal draw
divided by that same shared `y = s * sqrt u` — no per-coordinate redraw of
`u`. -/
theorem tsallis_sampler_shared_u (P : math_prims_t) (q_V t_V : ℚ)
    (g : generator_t) (k : ℕ)
    (h1 : 1 < q_V) (h2 : q_V < 3) (h3 : 0 < t_V) :
    tsallis_many_nth P (tsallis_param P q_V t_V) g k =
        P.normal_inv (g.stream (g.pos + 1 + k)) /
          ((tsallis_param P q_V t_V).s *
            P.sqrtf (P.gamma_inv (get_p q_V) (g.stream g.pos))) ∧
      (tsallis_many P (tsallis_param P q_V t_V) g).2.pos = g.pos + 1 ∧
      (tsallis_one P (tsallis_param P q_V t_V) g).1 =
        P.normal_inv (g.stream (g.pos + 1)) /
          ((tsallis_param P q_V t_V).s *
            P.sqrtf (P.gamma_inv (get_p q_V) (g.stream g.pos))) := by
  refine ⟨?_, rfl, ?_⟩
  · unfold tsallis_many_nth
    rw [many_calls_fst]
    simp only [tsallis_many, tsallis_param, gamma_sample]
    rw [div_eq_mul_inv, div_eq_mul_inv, mul_inv]
    ring
  · simp only [tsallis_one, tsallis_param, gamma_sample, normal_sample]
    rw [zero_add, one_mul]

/-- Witness for C4 at `q_V = 2`, `t_V = 1`, the zero primitives and the zero
generator, `k = 0`. -/
theorem tsallis_sampler_shared_u_w :
    tsallis_many_nth zero_prims (tsallis_param zero_prims 2 1) zero_gen 0 =
        zero_prims.normal_inv (zero_gen.stream (zero_gen.pos + 1 + 0)) /
          ((tsallis_param zero_prims 2 1).s *
            zero_prims.sqrtf
              (zero_prims.gamma_inv (get_p 2) (zero_gen.stream zero_gen.pos))) ∧
      (tsallis_many zero_prims (tsallis_param zero_prims 2 1) zero_gen).2.pos =
        zero_gen.pos + 1 ∧
      (tsallis_one zero_prims (tsallis_param zero_prims 2 1) zero_gen).1 =
        zero_prims.normal_inv (zero_gen.stream (zero_gen.pos + 1)) /
          ((tsallis_param zero_prims 2 1).s *
            zero_prims.sqrtf
              (zero_prims.gamma_inv (get_p 2) (zero_gen.stream zero_gen.pos))) :=
  tsallis_sampler_shared_u zero_prims 2 1 zero_gen 0
    (by decide) (by decide) (by decide)

/-- C5: for `q_V > 1` and `t_0 > 0`, the visiting temperature
`t_0·(2^(q_V-1) - 1) / ((2+i)^(q_V-1) - 1)` is strictly positive and
strictly decreasing in `i` (over `ℝ` with exact real exponentiation), and
each step runs the Markov chain with the acceptance temperature
`t_A = temperature(i) / (i + 1)` after updating the sampler to
`(q_V, temperature(i))`. -/
theorem temperature_schedule (t_0 q_V : ℝ) (h0 : 0 < t_0) (h1 : 1 < q_V) :
    (∀ i : ℕ, 0 < temperatureR t_0 q_V i) ∧
      (∀ i j : ℕ, i < j → temperatureR t_0 q_V j < temperatureR t_0 q_V i) ∧
      (∀ (P : math_prims_t) (obj : objective_t) (par : param_t)
          (c : sa_chain_t),
        sa_step P obj par c =
          sa_step_core P obj par
            (temperature P par.t_0 par.q_V c.i / ((c.i : ℚ) + 1))
            { c with
              dist := tsallis_param P par.q_V
                (temperature P par.t_0 par.q_V c.i) }) := by
  have hq : 0 < q_V - 1 := by linarith
  have hnum : 0 < t_0 * ((2 : ℝ) ^ (q_V - 1) - 1) := by
    have h2 : (1 : ℝ) < (2 : ℝ) ^ (q_V - 1) :=
      (Real.one_lt_rpow_iff_of_pos two_pos).2 (Or.inl ⟨one_lt_two, hq⟩)
    have : (0 : ℝ) < (2 : ℝ) ^ (q_V - 1) - 1 := by linarith
    exact mul_pos h0 this
  have hden : ∀ i : ℕ, 1 < ((2 + i : ℕ) : ℝ) ^ (q_V - 1) := by
    intro i
    have hb : (1 : ℝ) < ((2 + i : ℕ) : ℝ) := by
      exact_mod_cast (by omega : 1 < 2 + i)
    exact (Real.one_lt_rpow_iff_of_pos (by linarith)).2 (Or.inl ⟨hb, hq⟩)
  refine ⟨fun i => ?_, fun i j hij => ?_, fun P obj par c => rfl⟩
  · exact div_pos hnum (by linarith [hden i])
  · have hbij : ((2 + i : ℕ) : ℝ) < ((2 + j : ℕ) : ℝ) := by
      exact_mod_cast (by omega : 2 + i < 2 + j)
    have hrp : ((2 + i : ℕ) : ℝ) ^ (q_V - 1) < ((2 + j : ℕ) : ℝ) ^ (q_V - 1) :=
      Real.rpow_lt_rpow (by positivity) hbij hq
    exact div_lt_div_of_pos_left hnum (by linarith [hden i]) (by linarith)

/-- Witness for C5 at `t_0 = 1`, `q_V = 2`, iterations `0` and `1`. -/
theorem temperature_schedule_w :
    0 < temperatureR 1 2 0 ∧ temperatureR 1 2 1 < temperatureR 1 2 0 :=
  ⟨(temperature_schedule 1 2 one_pos one_lt_two).1 0,
    (temperature_schedule 1 2 one_pos one_lt_two).2.1 0 1 Nat.zero_lt_one⟩

/-- C6: a soft-failure status whose final value is not below `current.func`
reports success and leaves `current` (func and x) exactly as before the call;
any status outside the soft-failure set and `success` leaves `current`
untouched and is returned to the caller. -/
theorem local_search_policy (r : lbfgs_outcome_t) (c : sa_chain_t) :
    (soft_failure r.status = true → c.ws.current.func ≤ r.func →
        (local_search r c).1 = lbfgs_status.success ∧
          (local_search r c).2.ws.current = c.ws.current) ∧
      (soft_failure r.status = false → r.status ≠ lbfgs_status.success →
        (local_search r c).1 = r.status ∧
          (local_search r c).2.ws.current = c.ws.current) := by
  constructor
  · intro hs hle
    simp [local_search, hs, hle]
  · intro hs hns
    simp [local_search, hs, hns]

/-- Witness for C6: a `too_many_iterations` outcome with final value `1`
against a chain whose `current.func = 0`. -/
theorem local_search_policy_w :
    (local_search soft_no_gain_outcome ex_chain).1 = lbfgs_status.success ∧
      (local_search soft_no_gain_outcome ex_chain).2.ws.current =
        ex_chain.ws.current :=
  (local_search_policy soft_no_gain_outcome ex_chain).1 (by decide) (by decide)

/-- Counterexample to C7 as stated: a clean `success` outcome whose final
value `1` is worse than `current.func = 0` is swapped in unconditionally, so
`current.func` increases across the call. -/
theorem local_search_no_worsen_cex :
    ¬ ((local_search success_worse_outcome ex_chain).2.ws.current.func ≤
        ex_chain.ws.current.func) := by decide

/-- C7 (amended): whenever a clean-success report does not exceed the
starting value — in particular for every outcome whose status is not
`success` — `local_search` leaves `workspace.current.func` no larger than it
was before the call. -/
theorem local_search_no_worsen (r : lbfgs_outcome_t) (c : sa_chain_t)
    (h : r.status = lbfgs_status.success → r.func ≤ c.ws.current.func) :
    (local_search r c).2.ws.current.func ≤ c.ws.current.func := by
  unfold local_search
  dsimp only
  split
  · exact le_refl _
  · next h1 =>
    split
    · next hB =>
      rw [update_best_current]
      rcases hB with hsoft | hsucc
      · exact le_of_not_le fun hle => h1 ⟨hsoft, hle⟩
      · exact h hsucc
    · exact le_refl _

/-- Witness for the amended C7 at a hard-failure outcome. -/
theorem local_search_no_worsen_w :
    (local_search hard_outcome ex_chain).2.ws.current.func ≤
      ex_chain.ws.current.func :=
  local_search_no_worsen hard_outcome ex_chain (fun h => absurd h (by decide))

/-- With the tracker stuck at `+∞` (as in the overload without local search,
which never updates it), every executed iteration resets patience, so the
loop stops only when `i` reaches `num_iter` (given `patience ≥ 2` and enough
fuel). -/
theorem minimize_loop_none_i (P : math_prims_t) (obj : objective_t)
    (par : param_t) (h2 : 2 ≤ par.patience) :
    ∀ (fuel : ℕ) (c : sa_chain_t) (patience : ℕ), 1 ≤ patience →
      par.num_iter ≤ c.i + fuel →
      (minimize_loop P obj par fuel c none patience).i =
        max c.i par.num_iter := by
  intro fuel
  induction fuel with
  | zero =>
    intro c patience _ hle
    unfold minimize_loop
    omega
  | succ fuel ih =>
    intro c patience hp hle
    unfold minimize_loop
    by_cases hi : c.i < par.num_iter
    · rw [if_pos ⟨hi, by omega⟩]
      dsimp only
      have hres : (if lt_tracker (sa_step P obj par c).ws.best.func none
          then par.patience else patience) = par.patience := rfl
      rw [hres, ih (sa_step P obj par c) (par.patience - 1) (by omega)
        (by rw [sa_step_i]; omega), sa_step_i]
      omega
    · rw [if_neg (by omega : ¬(c.i < par.num_iter ∧ patience ≠ 0))]
      omega

/-- C3 fails on the code: in the `minimize` overload without local search the
tracked best value is initialised to `+∞` and never updated, so the
improvement test `best.func < tracker` succeeds on every iteration and resets
patience.  Consequently, for every objective, every draw sequence and every
`patience ≥ 2`, the driver runs exactly `num_iter` iterations — `best.func`
failing to improve for `patience` consecutive iterations never terminates the
run early. -/
theorem minimize_patience_never_triggers (P : math_prims_t)
    (obj : objective_t) (par : param_t) (x : List ℚ) (g : generator_t)
    (h2 : 2 ≤ par.patience) :
    (minimize P obj par x g).num_iter = par.num_iter := by
  unfold minimize
  dsimp only
  rw [minimize_loop_none_i P obj par h2 par.num_iter _ par.patience
    (by omega) (by simp [sa_chain_init])]
  simp [sa_chain_init]

/-- C3 evaluated at a failing input: a constant objective with
`patience = 2` and `num_iter = 5` runs all five iterations although
`best.func` never improves after construction — patience-based early
stopping never triggers in the overload without local search (see
`minimize_patience_never_triggers`). -/
theorem minimize_patience_bug :
    (minimize zero_prims const_objective
        { q_V := 2, q_A := 2, t_0 := 1, num_iter := 5, patience := 2 }
        [0] zero_gen).num_iter = 5 :=
  minimize_patience_never_triggers zero_prims const_objective
    { q_V := 2, q_A := 2, t_0 := 1, num_iter := 5, patience := 2 }
    [0] zero_gen (by decide)

/-- C8 at a failing input: for `wrap_size` (whose required byte size
`3 * align_up(size) * 4 ≥ 2^64` overflows `size_t`), the element-count
computation wraps to `128` before the overflow guard in `allocate_buffer`
runs, so `thread_local_workspace` succeeds and hands out three views of
`wrap_size` floats each backed by a 128-element allocation instead of
failing with `AllocationFailure`. -/
theorem thread_local_workspace_overflow_bug :
    thread_local_workspace (fun _ => true)
        { capacity := 0, buffer_size := 0 } wrap_size =
        some { capacity := 128, buffer_size := wrap_size } ∧
      2 ^ 64 ≤ 3 * align_up wrap_size * 4 ∧
      128 < 3 * align_up wrap_size := by decide
